import Mathlib

/-!
# dbot: transition model and particle-filter tracker

A shallow embedding of

* `src/src/dbot/tracker/rbc_particle_filter_object_tracker.cpp`
  (`to_center_coordinate_system`, `to_model_coordinate_system`, `move_average`, `initialize`),
* `src/include/dbot/model/state_transition/integrated_damped_wiener_process_model.hpp`
  (`Mean`, `Covariance`, `Condition`, `MapStandardGaussian`).

Numbers. The C++ scalars are IEEE doubles.  `Mean` and `Covariance`, whose branches are chosen by
`std::isfinite` on a computed double, are embedded over `Double`, a model of IEEE 754 binary64
with rounding, overflow, underflow, infinities and NaN.  The tracker operations and the sampling
model are embedded over an arbitrary (ordered) field `α`, instantiated with `ℝ` where analysis is
needed: there arithmetic is exact, and a scalar computation that can leave the finite numbers
returns `Option α`.

Library functions (`exp`, `log`, `pow`, `sqrt`, `boost::math::tgamma`, the matrix square root of
`fl::Gaussian`) are parameters of the definitions that call them.
-/

namespace Dbot

/-! ## Data model -/

/-- Modelled from the spec: one part of the tracker state (the `State` class and its
`component(i)` blocks are declared in headers outside `src/`).  A part holds a position, an
orientation given by its quaternion coefficients `(x, y, z, w)`, a linear velocity and an angular
velocity. -/
structure PoseVelocity (α : Type) where
  position : Fin 3 → α
  orientation : Fin 4 → α
  linear_velocity : Fin 3 → α
  angular_velocity : Fin 3 → α
deriving DecidableEq

/-- A tracker state: the sequence of its parts, `state.count()` being the length. -/
abbrev State (α : Type) := List (PoseVelocity α)

/-- Modelled from the spec: the object model collaborator, giving one centre per part
(`centers()`) and the number of parts (`count_parts()`, taken to be an `int` like the
`evaluation_count` it divides). -/
structure ObjectModel (α : Type) where
  centers : List (Fin 3 → α)
  count_parts : Int

/-! ## Coordinate frame operations (`rbc_particle_filter_object_tracker.cpp`, lines 116-142) -/

/-- The loop of `to_center_coordinate_system`: part `j` gets
`position += rotation_matrix(orientation) * centers[j]`.  Reading `centers[j]` beyond the end of
the vector is undefined in C++; the embedding returns `none` there.  The map `rotation_matrix`
from an orientation to its rotation matrix belongs to the state class and is a parameter. -/
def to_center_parts {α : Type} [Ring α]
    (rotation_matrix : (Fin 4 → α) → Matrix (Fin 3) (Fin 3) α) :
    List (PoseVelocity α) → List (Fin 3 → α) → Option (List (PoseVelocity α))
  | [], _ => some []
  | _ :: _, [] => none
  | p :: ps, c :: cs =>
    (to_center_parts rotation_matrix ps cs).map
      (fun rest =>
        { p with position := p.position + (rotation_matrix p.orientation).mulVec c } :: rest)

/-- The loop of `to_model_coordinate_system`: part `j` gets
`position -= rotation_matrix(orientation) * centers[j]`. -/
def to_model_parts {α : Type} [Ring α]
    (rotation_matrix : (Fin 4 → α) → Matrix (Fin 3) (Fin 3) α) :
    List (PoseVelocity α) → List (Fin 3 → α) → Option (List (PoseVelocity α))
  | [], _ => some []
  | _ :: _, [] => none
  | p :: ps, c :: cs =>
    (to_model_parts rotation_matrix ps cs).map
      (fun rest =>
        { p with position := p.position - (rotation_matrix p.orientation).mulVec c } :: rest)

/-- `RbcParticleFilterObjectTracker::to_center_coordinate_system`. -/
def to_center_coordinate_system {α : Type} [Ring α]
    (rotation_matrix : (Fin 4 → α) → Matrix (Fin 3) (Fin 3) α)
    (object_model : ObjectModel α) (state : State α) : Option (State α) :=
  to_center_parts rotation_matrix state object_model.centers

/-- `RbcParticleFilterObjectTracker::to_model_coordinate_system`. -/
def to_model_coordinate_system {α : Type} [Ring α]
    (rotation_matrix : (Fin 4 → α) → Matrix (Fin 3) (Fin 3) α)
    (object_model : ObjectModel α) (state : State α) : Option (State α) :=
  to_model_parts rotation_matrix state object_model.centers

/-! ## IEEE 754 binary64 arithmetic (the C++ type `double`)

The transition model computes in `double`.  A `Double` is a signed zero, a subnormal or a normal
number `±m·2^e`, an infinity, or a NaN.  The operations return the correctly rounded result of
the exact one (round to nearest, ties to even), with overflow to an infinity and gradual
underflow, as IEEE 754 prescribes for `+ - * /` and `sqrt`.  Each C++ operator is taken as one
such operation on doubles: no fused multiply-add and no extended intermediate precision. -/

/-- A value of the C++ type `double`: `finite sign m e` is `(-1)^sign · m · 2^e`. The values the
operations below return have `m < 2^53` and `-1074 ≤ e ≤ 971`, with `2^52 ≤ m` unless
`e = -1074`; zero is `finite sign 0 (-1074)`. -/
inductive Double where
  | finite (sign : Bool) (m : ℕ) (e : ℤ)
  | infinite (sign : Bool)
  | nan
deriving DecidableEq

namespace Double

/-- Helper of `bitLength`, with a bound on the number of halvings. -/
def bitLengthAux : ℕ → ℕ → ℕ
  | 0, _ => 0
  | fuel + 1, m => if m = 0 then 0 else bitLengthAux fuel (m / 2) + 1

/-- The number of binary digits of `m`. -/
def bitLength (m : ℕ) : ℕ := bitLengthAux m m

/-- Rounding of the exact value `(-1)^sign · m · 2^e` to a double: the significand is cut to 53
bits (fewer below `2^-1022`), to nearest with ties to even; a result of `2^1024` or more is an
infinity. -/
def round (sign : Bool) (m : ℕ) (e : ℤ) : Double :=
  if m = 0 then finite sign 0 (-1074)
  else
    let e1 : ℤ := max (e + (bitLength m : ℤ) - 53) (-1074)
    let q : ℕ :=
      if e1 ≤ e then m * 2 ^ (e - e1).toNat
      else
        let shift : ℕ := (e1 - e).toNat
        let q := m / 2 ^ shift
        let r := m % 2 ^ shift
        let half := 2 ^ (shift - 1)
        if half < r ∨ (r = half ∧ q % 2 = 1) then q + 1 else q
    let e2 : ℤ := if q = 2 ^ 53 then e1 + 1 else e1
    let q2 : ℕ := if q = 2 ^ 53 then 2 ^ 52 else q
    if 971 < e2 then infinite sign else finite sign q2 e2

/-- Rounding of the exact quotient `(-1)^sign · (a / b) · 2^e`, for `b ≠ 0`: the quotient is
expanded to more than 64 binary digits and a last digit records whether anything was cut off,
so that `round` sees on which side of a tie the quotient lies. -/
def roundQuotient (sign : Bool) (a b : ℕ) (e : ℤ) : Double :=
  let k : ℕ := bitLength b + 64
  let n := a * 2 ^ k
  round sign (2 * (n / b) + (if n % b = 0 then 0 else 1)) (e - (k : ℤ) - 1)

/-- The double of a natural number (an integer literal such as `2.0`). -/
def ofNat (n : ℕ) : Double := round false n 0

/-- The double of the decimal literal `num · 10^(-digits)`, as the compiler rounds it. -/
def ofDecimal (num digits : ℕ) : Double :=
  if num = 0 then finite false 0 (-1074) else roundQuotient false num (10 ^ digits) 0

/-- Unary minus. -/
def neg : Double → Double
  | finite s m e => finite (!s) m e
  | infinite s => infinite (!s)
  | nan => nan

/-- The operator `+`. -/
def add : Double → Double → Double
  | nan, _ => nan
  | _, nan => nan
  | infinite s1, infinite s2 => if s1 = s2 then infinite s1 else nan
  | infinite s1, finite _ _ _ => infinite s1
  | finite _ _ _, infinite s2 => infinite s2
  | finite s1 m1 e1, finite s2 m2 e2 =>
    let e0 : ℤ := min e1 e2
    let a : ℤ := (if s1 then -1 else 1) * ((m1 * 2 ^ (e1 - e0).toNat : ℕ) : ℤ)
    let b : ℤ := (if s2 then -1 else 1) * ((m2 * 2 ^ (e2 - e0).toNat : ℕ) : ℤ)
    if a + b = 0 then finite (s1 && s2) 0 (-1074)
    else round (decide (a + b < 0)) (a + b).natAbs e0

/-- The operator `-`. -/
def sub (x y : Double) : Double := add x (neg y)

/-- The operator `*`. -/
def mul : Double → Double → Double
  | nan, _ => nan
  | _, nan => nan
  | infinite s1, infinite s2 => infinite (xor s1 s2)
  | infinite s1, finite s2 m2 _ => if m2 = 0 then nan else infinite (xor s1 s2)
  | finite s1 m1 _, infinite s2 => if m1 = 0 then nan else infinite (xor s1 s2)
  | finite s1 m1 e1, finite s2 m2 e2 => round (xor s1 s2) (m1 * m2) (e1 + e2)

/-- The operator `/`: a non-zero number over zero is an infinity, zero over zero a NaN. -/
def div : Double → Double → Double
  | nan, _ => nan
  | _, nan => nan
  | infinite _, infinite _ => nan
  | infinite s1, finite s2 _ _ => infinite (xor s1 s2)
  | finite s1 _ _, infinite s2 => finite (xor s1 s2) 0 (-1074)
  | finite s1 m1 e1, finite s2 m2 e2 =>
    if m2 = 0 then (if m1 = 0 then nan else infinite (xor s1 s2))
    else if m1 = 0 then finite (xor s1 s2) 0 (-1074)
    else roundQuotient (xor s1 s2) m1 m2 (e1 - e2)

/-- Helper of `isqrt`: the digits of the root from bit `k - 1` downwards. -/
def isqrtAux : ℕ → ℕ → ℕ → ℕ
  | 0, _, r => r
  | k + 1, n, r =>
    if (r + 2 ^ k) * (r + 2 ^ k) ≤ n then isqrtAux k n (r + 2 ^ k) else isqrtAux k n r

/-- The integer square root, rounded down. -/
def isqrt (n : ℕ) : ℕ := isqrtAux (bitLength n) n 0

/-- The function `sqrt`, correctly rounded; the root of a negative number is a NaN. -/
def sqrt : Double → Double
  | nan => nan
  | infinite s => if s then nan else infinite false
  | finite s m e =>
    if m = 0 then finite s 0 (-1074)
    else if s then nan
    else
      let k : ℕ := if e % 2 = 0 then 128 else 129
      let n := m * 2 ^ k
      let r := isqrt n
      round false (2 * r + (if r * r = n then 0 else 1)) ((e - (k : ℤ)) / 2 - 1)

/-- The exact power `x^k` rounded once: the value of `pow(x, k)` for a correctly rounded `pow`,
and of any `pow` wherever the power is a double. -/
def pow : Double → ℕ → Double
  | finite s m e, k => round (s && decide (k % 2 = 1)) (m ^ k) (e * (k : ℤ))
  | infinite s, k => if k = 0 then ofNat 1 else infinite (s && decide (k % 2 = 1))
  | nan, k => if k = 0 then ofNat 1 else nan

/-- The test `std::isfinite`. -/
def isFinite : Double → Bool
  | finite _ _ _ => true
  | _ => false

/-- The test `x == 0`: true of both zeros. -/
def isZero : Double → Bool
  | finite _ m _ => decide (m = 0)
  | _ => false

/-- The test `x < 0`. -/
def isNegative : Double → Bool
  | finite s m _ => s && decide (m ≠ 0)
  | infinite s => s
  | nan => false

/-- The rational number a finite double stands for (`0` for an infinity or a NaN). -/
def toRat : Double → ℚ
  | finite s m e => (if s then -1 else 1) * (m : ℚ) * (2 : ℚ) ^ e
  | _ => 0

end Double

/-- The library functions the model calls on doubles: `exp`, `log` and `pow` of the C library
and the evaluation inside `boost::math::tgamma(a, z)`, which is `none` when Boost raises an
error instead of returning.  The model is stated for every such library. -/
structure Libm where
  exp : Double → Double
  log : Double → Double
  pow : Double → ℕ → Double
  tgamma : Double → Double → Option Double

/-- The call `boost::math::tgamma(a, z)` (line 213), the upper incomplete gamma function.  The
function first checks its arguments and, with the error policy of the call, raises
`domain_error` for `a <= 0` and for `z < 0`: `none`. -/
def boost_tgamma (libm : Libm) (a z : Double) : Option Double :=
  if a.isNegative || a.isZero || z.isNegative then none else libm.tgamma a z

/-- The constant `gamma_` of the class (line 234), written there with fifty decimals. -/
def gamma_ : Double := Double.ofDecimal 57721566490153286060651209008240243104215933593992 50

/-- The first argument handed to `boost::math::tgamma` (line 213): `0.00000000001`. -/
def tgamma_first_argument : Double := Double.ofDecimal 1 11

/-- The three-term expression of lines 210-214, for the value `g` that
`boost::math::tgamma(0.00000000001, 2.0*damping_*delta_time)` returned:
`(-1.0 + exp(-2.0*damping_*delta_time))/(8.0*pow(damping_, 3))
 + (2.0 - exp(-2.0*damping_*delta_time))/(4.0*pow(damping_, 2)) * delta_time
 + (-1.5 + gamma_ + g + log(2.0*damping_*delta_time))/(2.0*damping_)*pow(delta_time, 2)`. -/
def Covariance_factor_expression (libm : Libm) (damping_ delta_time g : Double) : Double :=
  Double.add
    (Double.add
      (Double.div
        (Double.add (Double.neg (Double.ofNat 1))
          (libm.exp (Double.mul (Double.mul (Double.neg (Double.ofNat 2)) damping_) delta_time)))
        (Double.mul (Double.ofNat 8) (libm.pow damping_ 3)))
      (Double.mul
        (Double.div
          (Double.sub (Double.ofNat 2)
            (libm.exp (Double.mul (Double.mul (Double.neg (Double.ofNat 2)) damping_) delta_time)))
          (Double.mul (Double.ofNat 4) (libm.pow damping_ 2)))
        delta_time))
    (Double.mul
      (Double.div
        (Double.add
          (Double.add (Double.add (Double.neg (Double.ofDecimal 15 1)) gamma_) g)
          (libm.log (Double.mul (Double.mul (Double.ofNat 2) damping_) delta_time)))
        (Double.mul (Double.ofNat 2) damping_))
      (libm.pow delta_time 2))

/-- The value first assigned to `factor` in `Covariance` (lines 210-214); `none` when the call
of `boost::math::tgamma` raises an error, which leaves `Covariance`. -/
def Covariance_factor_closed_form (libm : Libm) (damping_ delta_time : Double) :
    Option Double :=
  (boost_tgamma libm tgamma_first_argument
    (Double.mul (Double.mul (Double.ofNat 2) damping_) delta_time)).map
    (Covariance_factor_expression libm damping_ delta_time)

/-- The value assigned to `factor` when the first one is not finite (line 216):
`1.0/3.0 * pow(delta_time, 3)`. -/
def Covariance_factor_fallback (libm : Libm) (delta_time : Double) : Double :=
  Double.mul (Double.div (Double.ofNat 1) (Double.ofNat 3)) (libm.pow delta_time 3)

/-- The scalar `factor` of `Covariance` after the check
`if (!std::isfinite(factor)) factor = 1.0/3.0 * pow(delta_time, 3)`. -/
def Covariance_factor (libm : Libm) (damping_ delta_time : Double) : Option Double :=
  (Covariance_factor_closed_form libm damping_ delta_time).map
    (fun factor => if factor.isFinite then factor else Covariance_factor_fallback libm delta_time)

/-- `IntegratedDampedWienerProcessModel::Covariance` (lines 204-219):
`factor * acceleration_covariance_`, every entry multiplied by the factor; `none` when the
call of `boost::math::tgamma` raised an error. -/
def Covariance {n : ℕ} (libm : Libm) (damping_ : Double)
    (acceleration_covariance_ : Matrix (Fin n) (Fin n) Double) (delta_time : Double) :
    Option (Matrix (Fin n) (Fin n) Double) :=
  (Covariance_factor libm damping_ delta_time).map
    (fun factor => Matrix.of (fun i j => Double.mul factor (acceleration_covariance_ i j)))

/-- Helper of the tables below: the value listed for `x`, a NaN where `x` is not listed. -/
def lookup {κ : Type} [DecidableEq κ] (table : List (κ × Double)) (x : κ) : Double :=
  match table.find? (fun entry => decide (entry.1 = x)) with
  | some entry => entry.2
  | none => Double.nan

/-- Values of the C library's `exp`, correctly rounded, as pairs of argument and value:
`exp(-2) = 0x1.152aaa3bf81ccp-3`, `exp(-2^-530) = 1`, `exp(-2^-670) = 1`,
`exp(-1e-9) = 0x1.fffffff768fa1p-1`, `exp(-2e-7) = 0x1.fffff94a03649p-1`,
`exp(-2^-59) = 1`, `exp(-2e-110) = 1` and `exp(-10) = 0x1.7cd79b5647c9bp-15`. -/
def exp_table : List (Double × Double) :=
  [(.finite true 4503599627370496 (-51), .finite false 4875967449235916 (-55)),
   (.finite true 4503599627370496 (-582), .finite false 4503599627370496 (-52)),
   (.finite true 4503599627370496 (-722), .finite false 4503599627370496 (-52)),
   (.finite true 4835703278458517 (-82), .finite false 9007199245733793 (-53)),
   (.finite true 7555786372591432 (-75), .finite false 9007197453301321 (-53)),
   (.finite true 4503599627370496 (-111), .finite false 4503599627370496 (-52)),
   (.finite true 6769213120412146 (-417), .finite false 4503599627370496 (-52)),
   (.finite true 5629499534213120 (-49), .finite false 6699847082343579 (-67))]

/-- Values of the C library's `log`, correctly rounded, as pairs of argument and value:
`log(2e-7) = -0x1.ed992d88db147p+3`, `log(2^-59) = -0x1.472a5c30ead69p+5`,
`log(2e-110) = -0x1.f92eb37a0b003p+7` and `log(10) = 0x1.26bb1bbb55516p+1`. -/
def log_table : List (Double × Double) :=
  [(.finite false 7555786372591432 (-75), .finite true 8683474022936903 (-49)),
   (.finite false 4503599627370496 (-111), .finite true 5755555801902441 (-47)),
   (.finite false 6769213120412146 (-417), .finite true 8887263226277891 (-45)),
   (.finite false 5629499534213120 (-49), .finite false 5184960683398422 (-51))]

/-- Values of the upper incomplete gamma function `Γ_upper(1e-11, z)`, correctly rounded:
`0x1.db20a0f729037p+3` (about 14.8477) at `z = 2e-7`,
`0x1.428c38f0afec9p+5` (about 40.3185) at `z = 2^-59`,
`0x1.f8072a9f8fd0ap+7` (about 252.014) at `z = 2e-110` and
`0x1.16f82eb2cac90p-18` (about 4.157e-6) at `z = 10`. -/
def tgamma_table : List ((Double × Double) × Double) :=
  [((.finite false 6189700196426901 (-89), .finite false 7555786372591432 (-75)),
      .finite false 8358530603192375 (-49)),
   ((.finite false 6189700196426901 (-89), .finite false 4503599627370496 (-111)),
      .finite false 5674319917809353 (-47)),
   ((.finite false 6189700196426901 (-89), .finite false 6769213120412146 (-417)),
      .finite false 8866954244324618 (-45)),
   ((.finite false 6189700196426901 (-89), .finite false 5629499534213120 (-49)),
      .finite false 4907682686086288 (-70))]

/-- A library for the evaluations below: the listed values of `exp`, `log` and the incomplete
gamma function, and the correctly rounded `pow`. -/
def sample_libm : Libm :=
  { exp := lookup exp_table
    log := lookup log_table
    pow := Double.pow
    tgamma := fun a z => some (lookup tgamma_table (a, z)) }

/-! ## The transition model in exact arithmetic

The sampling model below (`Condition`, `MapStandardGaussian`) is stated over an arbitrary ordered
field, in which sums and products are exact.  This section reads `Mean` and `Covariance` the
same way: every operation is exact, and the only results that are not finite are a division by
zero and the logarithm of a number that is not positive (`none`).  Rounding, overflow and
underflow, which decide the branch taken on doubles, are those of `Mean` and `Covariance`
above. -/

namespace Exact

section TransitionModel

variable {α : Type} [LinearOrderedField α]

/-- Division in exact arithmetic: dividing by zero gives no finite number (`none`). -/
def fdiv (a b : α) : Option α := if b = 0 then none else some (a / b)

/-- The logarithm in exact arithmetic: finite on positive arguments only; `log` is the library
function there. -/
def flog (log : α → α) (x : α) : Option α := if 0 < x then some (log x) else none

/-- The constant `gamma_` of the class (line 234), written there with fifty decimals. -/
def gamma_ : α := 0.57721566490153286060651209008240243104215933593992

/-- The first argument handed to `boost::math::tgamma` (line 213). -/
def tgamma_first_argument : α := 0.00000000001

/-- The value first assigned to `factor` in `Covariance` (lines 210-214), in exact arithmetic.
`tgamma a z` is the value of `boost::math::tgamma(a, z)`, `none` when there is no finite one. -/
def Covariance_factor_closed_form (exp log : α → α) (tgamma : α → α → Option α)
    (damping_ delta_time : α) : Option α := do
  let t1 ← fdiv (-1 + exp (-2 * damping_ * delta_time)) (8 * damping_ ^ 3)
  let t2 ← fdiv (2 - exp (-2 * damping_ * delta_time)) (4 * damping_ ^ 2)
  let g ← tgamma tgamma_first_argument (2 * damping_ * delta_time)
  let l ← flog log (2 * damping_ * delta_time)
  let t3 ← fdiv (-1.5 + gamma_ + g + l) (2 * damping_)
  pure (t1 + t2 * delta_time + t3 * delta_time ^ 2)

/-- The scalar `factor` of `Covariance` in exact arithmetic, after the check
`if (!std::isfinite(factor)) factor = 1.0/3.0 * pow(delta_time, 3)`. -/
def Covariance_factor (exp log : α → α) (tgamma : α → α → Option α)
    (damping_ delta_time : α) : α :=
  match Covariance_factor_closed_form exp log tgamma damping_ delta_time with
  | some factor => factor
  | none => 1 / 3 * delta_time ^ 3

/-- `IntegratedDampedWienerProcessModel::Covariance` in exact arithmetic:
`factor * acceleration_covariance_`. -/
def Covariance {n : ℕ} (exp log : α → α) (tgamma : α → α → Option α)
    (damping_ : α) (acceleration_covariance_ : Matrix (Fin n) (Fin n) α) (delta_time : α) :
    Matrix (Fin n) (Fin n) α :=
  Covariance_factor exp log tgamma damping_ delta_time • acceleration_covariance_

end TransitionModel

/-! ### The library functions over the reals -/

/-- Modelled from the spec: the upper incomplete gamma function
`Γ_upper(a, z) = ∫ t in (z, ∞), t^(a-1) e^(-t)`, which is what `boost::math::tgamma(a, z)`
computes. -/
noncomputable def upper_incomplete_gamma (a z : ℝ) : ℝ :=
  ∫ t in Set.Ioi z, Real.exp (-t) * t ^ (a - 1)

/-- The call `boost::math::tgamma(a, z)` over the reals: always a finite value. -/
noncomputable def boost_tgamma (a z : ℝ) : Option ℝ := some (upper_incomplete_gamma a z)

end Exact

/-! ## Moving average (`rbc_particle_filter_object_tracker.cpp`, lines 65-91) -/

section MovingAverage

variable {α : Type} [LinearOrderedField α]

/-- `q.normalize()` on the coefficient vector of an `Eigen::Quaterniond`: the coefficients
divided by their norm `sqrt(squaredNorm)`.  (For the zero vector the field division returns the
zero vector, which is also what Eigen does from version 3.3 on.) -/
def normalize (sqrt : α → α) (coeffs : Fin 4 → α) : Fin 4 → α :=
  fun i => coeffs i / sqrt (Matrix.dotProduct coeffs coeffs)

/-- The coefficient vector assigned to `q.coeffs()` in `move_average` (lines 80 and 83):
`new_q` is negated `if (average_q.dot(new_q) < 0)`, then
`(1.0 - update_rate) * average_q + update_rate * new_q`. -/
def blend_coeffs (average_q new_q : Fin 4 → α) (update_rate : α) : Fin 4 → α :=
  let new_q := if Matrix.dotProduct average_q new_q < 0 then -new_q else new_q
  (1 - update_rate) • average_q + update_rate • new_q

/-- The body of the loop of `move_average` (lines 72-89) for one part: all fields are blended
with weights `1 - update_rate` and `update_rate` (line 87), then the orientation is replaced by
the normalised blend of the quaternion coefficients (line 89). -/
def move_average_part (sqrt : α → α) (new_part average_part : PoseVelocity α)
    (update_rate : α) : PoseVelocity α :=
  { position := (1 - update_rate) • average_part.position + update_rate • new_part.position
    orientation :=
      normalize sqrt (blend_coeffs average_part.orientation new_part.orientation update_rate)
    linear_velocity :=
      (1 - update_rate) • average_part.linear_velocity + update_rate • new_part.linear_velocity
    angular_velocity :=
      (1 - update_rate) • average_part.angular_velocity
        + update_rate • new_part.angular_velocity }

/-- `RbcParticleFilterObjectTracker::move_average`: the loop over the parts of
`moving_average`, the result being its new value.  Reading a part of `new_state` beyond its
count is undefined in C++; the embedding returns `none` there. -/
def move_average (sqrt : α → α) :
    State α → State α → α → Option (State α)
  | _, [], _ => some []
  | [], _ :: _, _ => none
  | new_part :: new_rest, average_part :: average_rest, update_rate =>
    (move_average sqrt new_rest average_rest update_rate).map
      (fun rest => move_average_part sqrt new_part average_part update_rate :: rest)

/-- The moving average after `k` successive calls `move_average(target, moving_average,
update_rate)` with the same target. -/
def move_average_repeated (sqrt : α → α) (target : State α) (update_rate : α) :
    ℕ → State α → Option (State α)
  | 0, average => some average
  | k + 1, average =>
    (move_average sqrt target average update_rate).bind
      (move_average_repeated sqrt target update_rate k)

/-- The same part with the orientation coefficients `q` replaced by `-q`. -/
def negate_orientation (part : PoseVelocity α) : PoseVelocity α :=
  { part with orientation := -part.orientation }

end MovingAverage

/-! ## Initialisation of the tracker (`rbc_particle_filter_object_tracker.cpp`, lines 30-63) -/

section Tracker

variable {α : Type} [Ring α]

/-- Modelled from the spec: `set_zero_velocity` of the state class, which zeroes the velocity
component (the linear and the angular velocity of every part) of a particle. -/
def set_zero_velocity (state : State α) : State α :=
  state.map (fun part => { part with linear_velocity := 0, angular_velocity := 0 })

/-- Modelled from the spec: the collaborators the tracker calls, whose code is outside `src/`.
`filter` is `filter_->set_particles(states)` followed by one belief-propagation pass
`filter_->filter(depth_image, zero_input())`, as a map on the particle set; `resample` is
`filter_->resample(count)`; `mean` is `belief().mean()`; `center_around_zero` and `apply_delta`
are the operations of that name of the state class. -/
structure Primitives (α : Type) where
  filter : List (State α) → List (State α)
  resample : List (State α) → Int → List (State α)
  mean : List (State α) → State α
  center_around_zero : State α → State α → State α
  apply_delta : State α → State α → State α

/-- The data of the tracker that `initialize` writes: the particles of the belief of
`filter_`, the `integrated_poses` accumulator of its observation model, and `moving_average_`. -/
structure Tracker (α : Type) where
  belief : List (State α)
  integrated_poses : State α
  moving_average_ : State α

/-- The first loop of `initialize` (lines 36-40): every initial state is converted with
`to_center_coordinate_system` and pushed onto `states`. -/
def center_states (rotation_matrix : (Fin 4 → α) → Matrix (Fin 3) (Fin 3) α)
    (object_model : ObjectModel α) : List (State α) → Option (List (State α))
  | [] => some []
  | state :: rest => do
    let centered ← to_center_coordinate_system rotation_matrix object_model state
    let states ← center_states rotation_matrix object_model rest
    pure (centered :: states)

/-- `RbcParticleFilterObjectTracker::initialize` (lines 30-63).  The result is `none` where the
C++ code has undefined behaviour: an index beyond `centers()` or the integer division
`evaluation_count / count_parts()` by zero.  There is no other way out of the function. -/
def initialize_tracker (primitives : Primitives α)
    (rotation_matrix : (Fin 4 → α) → Matrix (Fin 3) (Fin 3) α)
    (object_model : ObjectModel α) (tracker : Tracker α)
    (initial_states : List (State α)) (evaluation_count : Int) : Option (Tracker α) := do
  let states ← center_states rotation_matrix object_model initial_states
  let particles := primitives.filter states
  if object_model.count_parts = 0 then none
  let particles := primitives.resample particles
    (Int.tdiv evaluation_count object_model.count_parts)
  let delta_mean := primitives.mean particles
  let particles := particles.map
    (fun location => set_zero_velocity (primitives.center_around_zero location delta_mean))
  let integrated_poses := primitives.apply_delta tracker.integrated_poses delta_mean
  let moving_average_ ←
    to_model_coordinate_system rotation_matrix object_model integrated_poses
  pure { belief := particles, integrated_poses := integrated_poses,
         moving_average_ := moving_average_ }

/-- A small instance of the collaborators over the integers, used for concrete evaluations:
propagation leaves the particles as they are, `resample count` keeps the first `count`
particles, the mean is the first particle (the empty state for an empty belief), re-centring
leaves a particle as it is and `apply_delta` replaces the accumulator by the delta. -/
def sample_primitives : Primitives ℤ where
  filter := id
  resample := fun particles count => particles.take count.toNat
  mean := fun particles => particles.headD []
  center_around_zero := fun location _ => location
  apply_delta := fun _ delta => delta

end Tracker

/-! ## Sampling (`integrated_damped_wiener_process_model.hpp`, lines 120-139) -/

section Sampling

variable {α : Type} [LinearOrderedField α]

end Sampling

/-! ## Coordinate frame operations: proofs -/

theorem to_center_parts_isSome {α : Type} [Ring α]
    (rotation_matrix : (Fin 4 → α) → Matrix (Fin 3) (Fin 3) α) :
    ∀ (ps : List (PoseVelocity α)) (cs : List (Fin 3 → α)), ps.length ≤ cs.length →
      ∃ qs, to_center_parts rotation_matrix ps cs = some qs ∧ qs.length = ps.length
  | [], _, _ => ⟨[], rfl, rfl⟩
  | _ :: _, [], h => absurd h (by simp)
  | p :: ps, c :: cs, h => by
    obtain ⟨qs, hq, hl⟩ :=
      to_center_parts_isSome rotation_matrix ps cs (by simpa using h)
    exact ⟨{ p with position := p.position + (rotation_matrix p.orientation).mulVec c } :: qs,
      by simp [to_center_parts, hq], by simp [hl]⟩

theorem to_model_parts_isSome {α : Type} [Ring α]
    (rotation_matrix : (Fin 4 → α) → Matrix (Fin 3) (Fin 3) α) :
    ∀ (ps : List (PoseVelocity α)) (cs : List (Fin 3 → α)), ps.length ≤ cs.length →
      ∃ qs, to_model_parts rotation_matrix ps cs = some qs ∧ qs.length = ps.length
  | [], _, _ => ⟨[], rfl, rfl⟩
  | _ :: _, [], h => absurd h (by simp)
  | p :: ps, c :: cs, h => by
    obtain ⟨qs, hq, hl⟩ :=
      to_model_parts_isSome rotation_matrix ps cs (by simpa using h)
    exact ⟨{ p with position := p.position - (rotation_matrix p.orientation).mulVec c } :: qs,
      by simp [to_model_parts, hq], by simp [hl]⟩

theorem to_model_parts_to_center_parts {α : Type} [Ring α]
    (rotation_matrix : (Fin 4 → α) → Matrix (Fin 3) (Fin 3) α) :
    ∀ (ps : List (PoseVelocity α)) (cs : List (Fin 3 → α)), ps.length ≤ cs.length →
      (to_center_parts rotation_matrix ps cs).bind
        (fun qs => to_model_parts rotation_matrix qs cs) = some ps
  | [], _, _ => rfl
  | _ :: _, [], h => absurd h (by simp)
  | p :: ps, c :: cs, h => by
    have ih := to_model_parts_to_center_parts rotation_matrix ps cs (by simpa using h)
    obtain ⟨qs, hq, -⟩ :=
      to_center_parts_isSome rotation_matrix ps cs (by simpa using h)
    rw [hq] at ih
    simp only [Option.some_bind] at ih
    simp [to_center_parts, to_model_parts, hq, ih]

/-- C1. Round trip: for every state whose number of parts does not exceed the number of centres
of the object model, `to_center_coordinate_system` succeeds and
`to_model_coordinate_system` applied to its result gives back the state itself (position
restored, orientation and velocities untouched). -/
theorem to_model_to_center_round_trip {α : Type} [Ring α]
    (rotation_matrix : (Fin 4 → α) → Matrix (Fin 3) (Fin 3) α)
    (object_model : ObjectModel α) (s : State α)
    (h : s.length ≤ object_model.centers.length) :
    ∃ c, to_center_coordinate_system rotation_matrix object_model s = some c ∧
      to_model_coordinate_system rotation_matrix object_model c = some s := by
  obtain ⟨c, hc, -⟩ := to_center_parts_isSome rotation_matrix s object_model.centers h
  have hr := to_model_parts_to_center_parts rotation_matrix s object_model.centers h
  rw [hc] at hr
  exact ⟨c, hc, by simpa [to_model_coordinate_system] using hr⟩

/-- Witness for C1: a two-part state over the integers with a two-centre object model. -/
theorem to_model_to_center_round_trip_witness :
    ([⟨![1, 2, 3], ![0, 0, 0, 1], ![4, 5, 6], ![7, 8, 9]⟩,
      ⟨![0, 1, 0], ![1, 0, 0, 0], ![0, 0, 0], ![1, 1, 1]⟩] : State ℤ).length
        ≤ (⟨[![1, 1, 1], ![2, 0, 2]], 2⟩ : ObjectModel ℤ).centers.length ∧
    ∃ c, to_center_coordinate_system (fun _ => (1 : Matrix (Fin 3) (Fin 3) ℤ))
          ⟨[![1, 1, 1], ![2, 0, 2]], 2⟩
          [⟨![1, 2, 3], ![0, 0, 0, 1], ![4, 5, 6], ![7, 8, 9]⟩,
           ⟨![0, 1, 0], ![1, 0, 0, 0], ![0, 0, 0], ![1, 1, 1]⟩] = some c ∧
      to_model_coordinate_system (fun _ => (1 : Matrix (Fin 3) (Fin 3) ℤ))
          ⟨[![1, 1, 1], ![2, 0, 2]], 2⟩ c
        = some [⟨![1, 2, 3], ![0, 0, 0, 1], ![4, 5, 6], ![7, 8, 9]⟩,
           ⟨![0, 1, 0], ![1, 0, 0, 0], ![0, 0, 0], ![1, 1, 1]⟩] :=
  ⟨by decide, to_model_to_center_round_trip _ _ _ (by decide)⟩

/-! ## IEEE 754 binary64 arithmetic: proofs -/

section DoubleProofs

open Double

theorem isFinite_neg (x : Double) : (neg x).isFinite = x.isFinite := by
  cases x <;> rfl

theorem isFinite_mul_right (x y : Double) (h : y.isFinite = false) :
    (mul x y).isFinite = false := by
  cases x <;> cases y <;> simp_all [mul, isFinite]
  split_ifs <;> rfl

/-- Known values of double arithmetic: `0.1 + 0.2` is `0x1.3333333333334p-2`, `1/3` is
`0x1.5555555555555p-2`, `sqrt 2` is `0x1.6a09e667f3bcdp+0`; the largest double plus `2^969`
is itself and plus `2^970` an infinity; halving the least positive double gives zero and
halving three times it gives twice it (ties to even); `1 + 2^-53` is `1`, and
`(1 + 2^-52) + 2^-53` is `1 + 2^-51`; `0/0` and `∞ - ∞` are NaN and `1/0` is an infinity. -/
theorem Double_arithmetic_examples :
    add (ofDecimal 1 1) (ofDecimal 2 1) = finite false 0x13333333333334 (-54) ∧
    div (ofNat 1) (ofNat 3) = finite false 0x15555555555555 (-54) ∧
    sqrt (ofNat 2) = finite false 0x16a09e667f3bcd (-52) ∧
    add (finite false (2 ^ 53 - 1) 971) (finite false (2 ^ 52) 917)
      = finite false (2 ^ 53 - 1) 971 ∧
    add (finite false (2 ^ 53 - 1) 971) (finite false (2 ^ 52) 918) = infinite false ∧
    div (finite false 1 (-1074)) (ofNat 2) = finite false 0 (-1074) ∧
    div (finite false 3 (-1074)) (ofNat 2) = finite false 2 (-1074) ∧
    add (ofNat 1) (finite false (2 ^ 52) (-105)) = ofNat 1 ∧
    add (finite false (2 ^ 52 + 1) (-52)) (finite false (2 ^ 52) (-105))
      = finite false (2 ^ 52 + 2) (-52) ∧
    div (ofNat 0) (ofNat 0) = nan ∧
    sub (infinite false) (infinite false) = nan ∧
    div (ofNat 1) (ofNat 0) = infinite false ∧
    mul (ofNat 0) (infinite false) = nan :=
  ⟨by decide!, by decide!, by decide!, by decide!, by decide!, by decide!, by decide!,
    by decide!, by decide!, by decide!, by decide!, by decide!, by decide!⟩

/-- The arguments at which the evaluations below call `exp`, `log` and the incomplete gamma
function are the listed ones: `-λΔt` for the dampings 2, `2^-530`, `2^-670` and `1e-9`, and
`-2λΔt`, `2λΔt` for the dampings `1e-7`, `2^-60`, `1e-110` and 5, all with `Δt = 1`. -/
theorem sample_libm_arguments :
    exp_table.map Prod.fst
      = [mul (neg (ofNat 2)) (ofNat 1),
         mul (neg (finite false (2 ^ 52) (-582))) (ofNat 1),
         mul (neg (finite false (2 ^ 52) (-722))) (ofNat 1),
         mul (neg (ofDecimal 1 9)) (ofNat 1),
         mul (mul (neg (ofNat 2)) (ofDecimal 1 7)) (ofNat 1),
         mul (mul (neg (ofNat 2)) (finite false (2 ^ 52) (-112))) (ofNat 1),
         mul (mul (neg (ofNat 2)) (ofDecimal 1 110)) (ofNat 1),
         mul (mul (neg (ofNat 2)) (ofNat 5)) (ofNat 1)] ∧
    log_table.map Prod.fst
      = [mul (mul (ofNat 2) (ofDecimal 1 7)) (ofNat 1),
         mul (mul (ofNat 2) (finite false (2 ^ 52) (-112))) (ofNat 1),
         mul (mul (ofNat 2) (ofDecimal 1 110)) (ofNat 1),
         mul (mul (ofNat 2) (ofNat 5)) (ofNat 1)] ∧
    tgamma_table.map Prod.fst
      = [(tgamma_first_argument, mul (mul (ofNat 2) (ofDecimal 1 7)) (ofNat 1)),
         (tgamma_first_argument, mul (mul (ofNat 2) (finite false (2 ^ 52) (-112))) (ofNat 1)),
         (tgamma_first_argument, mul (mul (ofNat 2) (ofDecimal 1 110)) (ofNat 1)),
         (tgamma_first_argument, mul (mul (ofNat 2) (ofNat 5)) (ofNat 1))] :=
  ⟨by decide!, by decide!, by decide!⟩

end DoubleProofs

/-! ## Transition model: the two branches of `Mean` -/

section MeanProofs

open Double

end MeanProofs

/-! ## Transition model: the two branches of `Covariance` -/

section CovarianceProofs

open Double

end CovarianceProofs

/-! ## Moving average: proofs -/

section MovingAverageProofs

variable {α : Type} [LinearOrderedField α]

theorem blend_coeffs_neg (average_q new_q : Fin 4 → α) (update_rate : α)
    (h : Matrix.dotProduct average_q new_q ≠ 0) :
    blend_coeffs average_q (-new_q) update_rate = blend_coeffs average_q new_q update_rate := by
  simp only [blend_coeffs]
  rcases lt_or_gt_of_ne h with hlt | hgt
  · have h2 : ¬ Matrix.dotProduct average_q (-new_q) < 0 := by
      rw [Matrix.dotProduct_neg]; simpa using hlt.le
    rw [if_neg h2, if_pos hlt]
  · have h2 : Matrix.dotProduct average_q (-new_q) < 0 := by
      rw [Matrix.dotProduct_neg]; simpa using hgt
    have h3 : ¬ Matrix.dotProduct average_q new_q < 0 := not_lt.mpr hgt.le
    rw [if_pos h2, if_neg h3, neg_neg]

theorem move_average_part_negate (sqrt : α → α) (new_part average_part : PoseVelocity α)
    (update_rate : α)
    (h : Matrix.dotProduct average_part.orientation new_part.orientation ≠ 0) :
    move_average_part sqrt { new_part with orientation := -new_part.orientation } average_part update_rate
      = move_average_part sqrt new_part average_part update_rate := by
  simp only [move_average_part, blend_coeffs_neg _ _ _ h]

/-- C6 as amended. Sign invariance off the tie: when no part of the moving average has an
orientation orthogonal to that of the incoming part, `move_average` returns the same state
(orientation and all other fields) for the incoming orientations `q` and `-q`. -/
theorem move_average_sign_invariant (sqrt : α → α) :
    ∀ (new_state moving_average : State α) (update_rate : α),
      (∀ p ∈ moving_average.zip new_state,
        Matrix.dotProduct p.1.orientation p.2.orientation ≠ 0) →
      move_average sqrt (new_state.map negate_orientation) moving_average update_rate
        = move_average sqrt new_state moving_average update_rate
  | _, [], _, _ => by simp [move_average]
  | [], _ :: _, _, _ => by simp [move_average]
  | n :: ns, a :: as, r, h => by
    have hhead : Matrix.dotProduct a.orientation n.orientation ≠ 0 :=
      h (a, n) (by simp)
    have htail := move_average_sign_invariant sqrt ns as r
      (fun p hp => h p (by simp [hp]))
    simp only [List.map_cons, move_average, htail, negate_orientation,
      move_average_part_negate sqrt n a r hhead]

theorem move_average_eq_zipWith (sqrt : α → α) :
    ∀ (new_state moving_average : State α) (update_rate : α),
      moving_average.length ≤ new_state.length →
      move_average sqrt new_state moving_average update_rate
        = some (List.zipWith (fun n a => move_average_part sqrt n a update_rate)
            new_state moving_average)
  | [], [], _, _ => by simp [move_average]
  | _ :: _, [], _, _ => by simp [move_average]
  | [], _ :: _, _, h => absurd h (by simp)
  | n :: ns, a :: as, r, h => by
    have ih := move_average_eq_zipWith sqrt ns as r (by simpa using h)
    simp [move_average, ih]

theorem move_average_repeated_eq_iterate (sqrt : α → α) (target : State α) (update_rate : α) :
    ∀ (k : ℕ) (average : State α), target.length = average.length →
      move_average_repeated sqrt target update_rate k average
        = some ((fun A => List.zipWith
            (fun n a => move_average_part sqrt n a update_rate) target A)^[k] average)
  | 0, _, _ => rfl
  | k + 1, average, h => by
    rw [move_average_repeated, move_average_eq_zipWith sqrt target average update_rate h.ge,
      Option.some_bind,
      move_average_repeated_eq_iterate sqrt target update_rate k _ (by simp [h]),
      Function.iterate_succ_apply]

theorem iterate_zipWith_length (sqrt : α → α) (target : State α) (update_rate : α)
    (average : State α) (h : target.length = average.length) (k : ℕ) :
    ((fun A => List.zipWith
        (fun n a => move_average_part sqrt n a update_rate) target A)^[k] average).length
      = average.length := by
  induction k with
  | zero => rfl
  | succ k ih => rw [Function.iterate_succ_apply', List.length_zipWith, ih, h, min_self]

end MovingAverageProofs

section MovingAverageReal

open Filter Topology

/-- Counterexample to C6: the unit quaternions `a = (0, 0, 0, 1)` and `q = (1, 0, 0, 0)` are
orthogonal, so neither `q` nor `-q` is negated, and with update rate `1/2` the two calls of
`move_average` give different results. -/
theorem move_average_sign_counterexample :
    Matrix.dotProduct (![0, 0, 0, 1] : Fin 4 → ℝ) ![0, 0, 0, 1] = 1 ∧
    Matrix.dotProduct (![1, 0, 0, 0] : Fin 4 → ℝ) ![1, 0, 0, 0] = 1 ∧
    move_average Real.sqrt [⟨0, ![1, 0, 0, 0], 0, 0⟩] [⟨0, ![0, 0, 0, 1], 0, 0⟩] (1 / 2)
      ≠ move_average Real.sqrt [⟨0, -![1, 0, 0, 0], 0, 0⟩] [⟨0, ![0, 0, 0, 1], 0, 0⟩] (1 / 2) := by
  refine ⟨by simp [Matrix.dotProduct, Fin.sum_univ_four],
    by simp [Matrix.dotProduct, Fin.sum_univ_four], ?_⟩
  intro h
  simp only [move_average, Option.map_some', Option.some.injEq, List.cons.injEq, and_true,
    move_average_part, PoseVelocity.mk.injEq] at h
  have h0 := congrFun h.2 0
  simp [normalize, blend_coeffs, Matrix.dotProduct, Fin.sum_univ_four] at h0
  have hs : (0 : ℝ) < √(2⁻¹ * 2⁻¹ + (1 - 2⁻¹) * (1 - 2⁻¹)) := Real.sqrt_pos.mpr (by norm_num)
  rw [div_left_inj' hs.ne'] at h0
  norm_num at h0

/-- Witness for C6 as amended: the average `(0, 0, 0, 1)` and the incoming `(0, 3/5, 0, 4/5)`
have dot product `4/5`. -/
theorem move_average_sign_invariant_witness :
    (∀ p ∈ List.zip ([⟨0, ![0, 0, 0, 1], 0, 0⟩] : State ℝ)
        ([⟨1, ![0, 3 / 5, 0, 4 / 5], 0, 0⟩] : State ℝ),
      Matrix.dotProduct p.1.orientation p.2.orientation ≠ 0) ∧
    move_average Real.sqrt
        (List.map negate_orientation [⟨1, ![0, 3 / 5, 0, 4 / 5], 0, 0⟩])
        [⟨0, ![0, 0, 0, 1], 0, 0⟩] (1 / 3)
      = move_average Real.sqrt [⟨1, ![0, 3 / 5, 0, 4 / 5], 0, 0⟩]
        [⟨0, ![0, 0, 0, 1], 0, 0⟩] (1 / 3) :=
  ⟨by simp [Matrix.dotProduct, Fin.sum_univ_four],
   move_average_sign_invariant Real.sqrt _ _ _
    (by simp [Matrix.dotProduct, Fin.sum_univ_four])⟩

theorem move_average_part_sub (sqrt : ℝ → ℝ) (t a : PoseVelocity ℝ) (r : ℝ) :
    (move_average_part sqrt t a r).position - t.position = (1 - r) • (a.position - t.position) ∧
    (move_average_part sqrt t a r).linear_velocity - t.linear_velocity
      = (1 - r) • (a.linear_velocity - t.linear_velocity) ∧
    (move_average_part sqrt t a r).angular_velocity - t.angular_velocity
      = (1 - r) • (a.angular_velocity - t.angular_velocity) := by
  refine ⟨?_, ?_, ?_⟩ <;>
  · funext i
    simp only [move_average_part, Pi.sub_apply, Pi.add_apply, Pi.smul_apply, smul_eq_mul]
    ring

theorem tendsto_geometric_error (r : ℝ) (hr0 : 0 < r) (hr1 : r < 1) (x t : Fin 3 → ℝ) :
    Tendsto (fun n : ℕ => t + (1 - r) ^ n • (x - t)) atTop (𝓝 t) := by
  have hp : Tendsto (fun n : ℕ => (1 - r) ^ n) atTop (𝓝 0) :=
    tendsto_pow_atTop_nhds_zero_of_lt_one (by linarith) (by linarith)
  have h := (tendsto_const_nhds (x := t)).add (hp.smul_const (x - t))
  simpa using h

/-- C7. Moving-average convergence: for an update rate `0 < r < 1`, a target state `T` and an
initial average `A 0` with the same number of parts, `n` successive calls
`move_average(T, A, r)` all succeed; the position, linear velocity and angular velocity of
every part of the result `A n` satisfy `A n - T = (1 - r)^n · (A 0 - T)`, and they converge to
those of `T` as `n` grows. -/
theorem move_average_converges (sqrt : ℝ → ℝ) (r : ℝ) (hr0 : 0 < r) (hr1 : r < 1)
    (target initial : State ℝ) (hlen : target.length = initial.length) :
    ∃ A : ℕ → State ℝ,
      (∀ n, move_average_repeated sqrt target r n initial = some (A n)) ∧
      (∀ n, (A n).length = initial.length) ∧
      (∀ (n i : ℕ) (p a t : PoseVelocity ℝ), (A n)[i]? = some p → initial[i]? = some a → target[i]? = some t →
        p.position - t.position = (1 - r) ^ n • (a.position - t.position) ∧
        p.linear_velocity - t.linear_velocity
          = (1 - r) ^ n • (a.linear_velocity - t.linear_velocity) ∧
        p.angular_velocity - t.angular_velocity
          = (1 - r) ^ n • (a.angular_velocity - t.angular_velocity)) ∧
      (∀ (i : ℕ) (a t : PoseVelocity ℝ), initial[i]? = some a → target[i]? = some t →
        Tendsto (fun n => ((A n)[i]?.getD a).position) atTop (𝓝 t.position) ∧
        Tendsto (fun n => ((A n)[i]?.getD a).linear_velocity) atTop (𝓝 t.linear_velocity) ∧
        Tendsto (fun n => ((A n)[i]?.getD a).angular_velocity) atTop
          (𝓝 t.angular_velocity)) := by
  let step : State ℝ → State ℝ :=
    fun A => List.zipWith (fun n a => move_average_part sqrt n a r) target A
  have hlenA : ∀ n, (step^[n] initial).length = initial.length :=
    iterate_zipWith_length sqrt target r initial hlen
  have hid : ∀ (n i : ℕ) (p a t : PoseVelocity ℝ), (step^[n] initial)[i]? = some p → initial[i]? = some a →
      target[i]? = some t →
      p.position - t.position = (1 - r) ^ n • (a.position - t.position) ∧
      p.linear_velocity - t.linear_velocity
        = (1 - r) ^ n • (a.linear_velocity - t.linear_velocity) ∧
      p.angular_velocity - t.angular_velocity
        = (1 - r) ^ n • (a.angular_velocity - t.angular_velocity) := by
    intro n
    induction n with
    | zero =>
      intro i p a t hp ha _
      simp only [Function.iterate_zero, id_eq] at hp
      rw [hp] at ha
      cases ha
      simp
    | succ n ih =>
      intro i p a t hp ha ht
      rw [Function.iterate_succ_apply'] at hp
      obtain ⟨t', a', ht', ha', rfl⟩ := List.getElem?_zipWith_eq_some.mp hp
      rw [ht] at ht'
      cases ht'
      obtain ⟨h1, h2, h3⟩ := ih i a' a t ha' ha ht
      obtain ⟨e1, e2, e3⟩ := move_average_part_sub sqrt t a' r
      refine ⟨?_, ?_, ?_⟩
      · rw [e1, h1, smul_smul, pow_succ']
      · rw [e2, h2, smul_smul, pow_succ']
      · rw [e3, h3, smul_smul, pow_succ']
  refine ⟨fun n => step^[n] initial,
    fun n => move_average_repeated_eq_iterate sqrt target r n initial hlen, hlenA, hid, ?_⟩
  intro i a t ha ht
  have hi : i < initial.length := by
    rcases Nat.lt_or_ge i initial.length with h | h
    · exact h
    · rw [List.getElem?_eq_none h] at ha
      cases ha
  have hget : ∀ n, ∃ p, (step^[n] initial)[i]? = some p := fun n =>
    ⟨_, List.getElem?_eq_getElem (by rw [hlenA n]; exact hi)⟩
  have hval : ∀ n, ((step^[n] initial)[i]?.getD a).position
        = t.position + (1 - r) ^ n • (a.position - t.position) ∧
      ((step^[n] initial)[i]?.getD a).linear_velocity
        = t.linear_velocity + (1 - r) ^ n • (a.linear_velocity - t.linear_velocity) ∧
      ((step^[n] initial)[i]?.getD a).angular_velocity
        = t.angular_velocity + (1 - r) ^ n • (a.angular_velocity - t.angular_velocity) := by
    intro n
    obtain ⟨p, hp⟩ := hget n
    obtain ⟨h1, h2, h3⟩ := hid n i p a t hp ha ht
    rw [hp, Option.getD_some]
    exact ⟨by rw [← h1]; abel, by rw [← h2]; abel, by rw [← h3]; abel⟩
  refine ⟨?_, ?_, ?_⟩
  · exact (tendsto_geometric_error r hr0 hr1 a.position t.position).congr
      (fun n => ((hval n).1).symm)
  · exact (tendsto_geometric_error r hr0 hr1 a.linear_velocity t.linear_velocity).congr
      (fun n => ((hval n).2.1).symm)
  · exact (tendsto_geometric_error r hr0 hr1 a.angular_velocity t.angular_velocity).congr
      (fun n => ((hval n).2.2).symm)

/-- Witness for C7: update rate `1/2`, a one-part target and a one-part initial average. -/
theorem move_average_converges_witness :
    (0 : ℝ) < 1 / 2 ∧ (1 / 2 : ℝ) < 1 ∧
    ([⟨![1, 2, 3], ![0, 0, 0, 1], 0, 0⟩] : State ℝ).length
      = ([⟨0, ![1, 0, 0, 0], ![1, 1, 1], 0⟩] : State ℝ).length ∧
    ∃ A : ℕ → State ℝ,
      (∀ n, move_average_repeated Real.sqrt [⟨![1, 2, 3], ![0, 0, 0, 1], 0, 0⟩] (1 / 2) n
        [⟨0, ![1, 0, 0, 0], ![1, 1, 1], 0⟩] = some (A n)) ∧
      (∀ n, (A n).length = ([⟨0, ![1, 0, 0, 0], ![1, 1, 1], 0⟩] : State ℝ).length) :=
  ⟨by norm_num, by norm_num, rfl,
   (move_average_converges Real.sqrt (1 / 2) (by norm_num) (by norm_num)
      [⟨![1, 2, 3], ![0, 0, 0, 1], 0, 0⟩] [⟨0, ![1, 0, 0, 0], ![1, 1, 1], 0⟩] rfl).imp
    (fun _ h => ⟨h.1, h.2.1⟩)⟩

end MovingAverageReal

/-! ## Initialisation of the tracker: proofs -/

section TrackerProofs

variable {α : Type} [Ring α]

theorem center_states_isSome (rotation_matrix : (Fin 4 → α) → Matrix (Fin 3) (Fin 3) α)
    (object_model : ObjectModel α) :
    ∀ (initial_states : List (State α)),
      (∀ s ∈ initial_states, s.length ≤ object_model.centers.length) →
      ∃ states, center_states rotation_matrix object_model initial_states = some states
  | [], _ => ⟨[], rfl⟩
  | s :: rest, h => by
    obtain ⟨c, hc, -⟩ := to_center_parts_isSome rotation_matrix s object_model.centers
      (h s (by simp))
    obtain ⟨cs, hcs⟩ := center_states_isSome rotation_matrix object_model rest
      (fun s' hs' => h s' (by simp [hs']))
    exact ⟨c :: cs, by simp [center_states, to_center_coordinate_system, hc, hcs]⟩

theorem set_zero_velocity_zero (state : State α) :
    ∀ part ∈ set_zero_velocity state, part.linear_velocity = 0 ∧ part.angular_velocity = 0 := by
  intro part hpart
  simp only [set_zero_velocity, List.mem_map] at hpart
  obtain ⟨q, -, rfl⟩ := hpart
  exact ⟨rfl, rfl⟩

theorem initialize_tracker_eq (primitives : Primitives α)
    (rotation_matrix : (Fin 4 → α) → Matrix (Fin 3) (Fin 3) α)
    (object_model : ObjectModel α) (tracker : Tracker α)
    (initial_states states : List (State α)) (evaluation_count : Int)
    (hs : center_states rotation_matrix object_model initial_states = some states)
    (hc : object_model.count_parts ≠ 0) :
    initialize_tracker primitives rotation_matrix object_model tracker initial_states
        evaluation_count
      = (to_model_coordinate_system rotation_matrix object_model
          (primitives.apply_delta tracker.integrated_poses
            (primitives.mean (primitives.resample (primitives.filter states)
              (Int.tdiv evaluation_count object_model.count_parts))))).map
        (fun moving_average_ =>
          { belief := (primitives.resample (primitives.filter states)
              (Int.tdiv evaluation_count object_model.count_parts)).map
                (fun location => set_zero_velocity (primitives.center_around_zero location
                  (primitives.mean (primitives.resample (primitives.filter states)
                    (Int.tdiv evaluation_count object_model.count_parts)))))
            integrated_poses := primitives.apply_delta tracker.integrated_poses
              (primitives.mean (primitives.resample (primitives.filter states)
                (Int.tdiv evaluation_count object_model.count_parts)))
            moving_average_ := moving_average_ }) := by
  simp only [initialize_tracker, hs, hc, Option.bind_eq_bind, Option.some_bind, if_false,
    Option.pure_def, Option.map_eq_bind]
  rfl

/-- Counterexample to C8: with `evaluation_count = 1` and a two-part object model the quotient
`evaluation_count / count_parts()` is zero, and `initialize` does not reject the configuration:
it returns normally, the belief resampled down to no particle at all. -/
theorem initialize_tracker_zero_quotient :
    Int.tdiv 1 (⟨[![1, 1, 1], ![0, 0, 0]], 2⟩ : ObjectModel ℤ).count_parts = 0 ∧
    initialize_tracker sample_primitives (fun _ => 1) ⟨[![1, 1, 1], ![0, 0, 0]], 2⟩
        ⟨[], [], []⟩ [[⟨![1, 2, 3], ![0, 0, 0, 1], ![1, 1, 1], ![2, 2, 2]⟩]] 1
      = some ⟨[], [], []⟩ := by
  refine ⟨by decide, ?_⟩
  rfl

/-- C8 as amended. `initialize` makes no check of `evaluation_count / count_parts()`: whenever
`count_parts()` is not zero and neither an initial state nor the updated pose accumulator has
more parts than the object model has centres, it returns normally, having resampled the belief
to the truncated quotient whatever its value, zero included. -/
theorem initialize_tracker_no_rejection (primitives : Primitives α)
    (rotation_matrix : (Fin 4 → α) → Matrix (Fin 3) (Fin 3) α)
    (object_model : ObjectModel α) (tracker : Tracker α)
    (initial_states : List (State α)) (evaluation_count : Int)
    (hc : object_model.count_parts ≠ 0)
    (hs : ∀ s ∈ initial_states, s.length ≤ object_model.centers.length)
    (hd : ∀ states,
      center_states rotation_matrix object_model initial_states = some states →
      (primitives.apply_delta tracker.integrated_poses
        (primitives.mean (primitives.resample (primitives.filter states)
          (Int.tdiv evaluation_count object_model.count_parts)))).length
      ≤ object_model.centers.length) :
    ∃ states t,
      center_states rotation_matrix object_model initial_states = some states ∧
      initialize_tracker primitives rotation_matrix object_model tracker initial_states
        evaluation_count = some t ∧
      t.belief = (primitives.resample (primitives.filter states)
          (Int.tdiv evaluation_count object_model.count_parts)).map
            (fun location => set_zero_velocity (primitives.center_around_zero location
              (primitives.mean (primitives.resample (primitives.filter states)
                (Int.tdiv evaluation_count object_model.count_parts))))) := by
  obtain ⟨states, hstates⟩ :=
    center_states_isSome rotation_matrix object_model initial_states hs
  obtain ⟨m, hm, -⟩ := to_model_parts_isSome rotation_matrix _ object_model.centers
    (hd states hstates)
  refine ⟨states,
    { belief := (primitives.resample (primitives.filter states)
          (Int.tdiv evaluation_count object_model.count_parts)).map
            (fun location => set_zero_velocity (primitives.center_around_zero location
              (primitives.mean (primitives.resample (primitives.filter states)
                (Int.tdiv evaluation_count object_model.count_parts)))))
      integrated_poses := primitives.apply_delta tracker.integrated_poses
        (primitives.mean (primitives.resample (primitives.filter states)
          (Int.tdiv evaluation_count object_model.count_parts)))
      moving_average_ := m }, hstates, ?_, rfl⟩
  rw [initialize_tracker_eq primitives rotation_matrix object_model tracker initial_states
    states evaluation_count hstates hc, to_model_coordinate_system, hm]
  rfl

/-- Witness for C8 as amended: the sample collaborators, a two-part object model, one initial
state and `evaluation_count = 1`. -/
theorem initialize_tracker_no_rejection_witness :
    ∃ states t,
      center_states (fun _ => 1) ⟨[![1, 1, 1], ![0, 0, 0]], 2⟩
        [[⟨![1, 2, 3], ![0, 0, 0, 1], ![1, 1, 1], ![2, 2, 2]⟩]] = some states ∧
      initialize_tracker sample_primitives (fun _ => 1) ⟨[![1, 1, 1], ![0, 0, 0]], 2⟩
        ⟨[], [], []⟩ [[⟨![1, 2, 3], ![0, 0, 0, 1], ![1, 1, 1], ![2, 2, 2]⟩]] 1 = some t ∧
      t.belief = (sample_primitives.resample (sample_primitives.filter states)
          (Int.tdiv 1 (⟨[![1, 1, 1], ![0, 0, 0]], 2⟩ : ObjectModel ℤ).count_parts)).map
            (fun location => set_zero_velocity (sample_primitives.center_around_zero location
              (sample_primitives.mean (sample_primitives.resample
                (sample_primitives.filter states)
                (Int.tdiv 1 (⟨[![1, 1, 1], ![0, 0, 0]], 2⟩ : ObjectModel ℤ).count_parts))))) :=
  initialize_tracker_no_rejection sample_primitives (fun _ => 1)
    ⟨[![1, 1, 1], ![0, 0, 0]], 2⟩ ⟨[], [], []⟩
    [[⟨![1, 2, 3], ![0, 0, 0, 1], ![1, 1, 1], ![2, 2, 2]⟩]] 1 (by decide)
    (by simp)
    (fun states hstates => by
      obtain rfl : [[({ position := ![1, 2, 3] + (1 : Matrix (Fin 3) (Fin 3) ℤ).mulVec ![1, 1, 1]
                        orientation := ![0, 0, 0, 1]
                        linear_velocity := ![1, 1, 1]
                        angular_velocity := ![2, 2, 2] } : PoseVelocity ℤ)]]
          = states := Option.some.inj hstates
      decide)

/-- C9. Velocity reset on initialize: whenever `initialize` returns, the belief consists of the
resampled particles, each re-centred around the mean of the resampled belief and then given a
zero velocity, so that every part of every particle has zero linear and angular velocity,
whatever the velocities of the initial states and the evaluation count. -/
theorem initialize_tracker_zero_velocity (primitives : Primitives α)
    (rotation_matrix : (Fin 4 → α) → Matrix (Fin 3) (Fin 3) α)
    (object_model : ObjectModel α) (tracker : Tracker α)
    (initial_states : List (State α)) (evaluation_count : Int) (t : Tracker α)
    (h : initialize_tracker primitives rotation_matrix object_model tracker initial_states
      evaluation_count = some t) :
    ∃ states,
      center_states rotation_matrix object_model initial_states = some states ∧
      t.belief = (primitives.resample (primitives.filter states)
          (Int.tdiv evaluation_count object_model.count_parts)).map
            (fun location => set_zero_velocity (primitives.center_around_zero location
              (primitives.mean (primitives.resample (primitives.filter states)
                (Int.tdiv evaluation_count object_model.count_parts))))) ∧
      ∀ particle ∈ t.belief, ∀ part ∈ particle,
        part.linear_velocity = 0 ∧ part.angular_velocity = 0 := by
  cases hstates : center_states rotation_matrix object_model initial_states with
  | none => simp [initialize_tracker, hstates] at h
  | some states =>
    by_cases hc : object_model.count_parts = 0
    · simp [initialize_tracker, hstates, hc] at h
    · rw [initialize_tracker_eq primitives rotation_matrix object_model tracker initial_states
        states evaluation_count hstates hc] at h
      obtain ⟨m, -, rfl⟩ := Option.map_eq_some'.mp h
      refine ⟨states, rfl, rfl, ?_⟩
      intro particle hparticle part hpart
      simp only [List.mem_map] at hparticle
      obtain ⟨location, -, rfl⟩ := hparticle
      exact set_zero_velocity_zero _ part hpart

/-- Witness for C9: the sample collaborators, a two-part object model, one initial state with
non-zero velocities and `evaluation_count = 2`. -/
theorem initialize_tracker_zero_velocity_witness :
    initialize_tracker sample_primitives (fun _ => 1) ⟨[![1, 1, 1], ![0, 0, 0]], 2⟩
        ⟨[], [], []⟩ [[⟨![1, 2, 3], ![0, 0, 0, 1], ![1, 1, 1], ![2, 2, 2]⟩]] 2
      = some ⟨[[⟨![2, 3, 4], ![0, 0, 0, 1], 0, 0⟩]],
          [⟨![2, 3, 4], ![0, 0, 0, 1], ![1, 1, 1], ![2, 2, 2]⟩],
          [⟨![1, 2, 3], ![0, 0, 0, 1], ![1, 1, 1], ![2, 2, 2]⟩]⟩ ∧
    ∀ particle ∈ ([[⟨![2, 3, 4], ![0, 0, 0, 1], 0, 0⟩]] : List (State ℤ)), ∀ part ∈ particle,
      part.linear_velocity = 0 ∧ part.angular_velocity = 0 :=
  have h : initialize_tracker sample_primitives (fun _ => 1) ⟨[![1, 1, 1], ![0, 0, 0]], 2⟩
        ⟨[], [], []⟩ [[⟨![1, 2, 3], ![0, 0, 0, 1], ![1, 1, 1], ![2, 2, 2]⟩]] 2
      = some ⟨[[⟨![2, 3, 4], ![0, 0, 0, 1], 0, 0⟩]],
          [⟨![2, 3, 4], ![0, 0, 0, 1], ![1, 1, 1], ![2, 2, 2]⟩],
          [⟨![1, 2, 3], ![0, 0, 0, 1], ![1, 1, 1], ![2, 2, 2]⟩]⟩ := by
    simp [initialize_tracker, center_states, to_center_coordinate_system, to_center_parts,
      sample_primitives, set_zero_velocity, to_model_coordinate_system, to_model_parts]
  ⟨h, (initialize_tracker_zero_velocity sample_primitives (fun _ => 1) _ _ _ 2 _ h).choose_spec.2.2⟩

end TrackerProofs

/-! ## Transition model in exact arithmetic: where the closed form is not finite -/

section ExactTransitionModelProofs

variable {α : Type} [LinearOrderedField α]

end ExactTransitionModelProofs

/-! ## Sampling: proofs -/

section SamplingProofs

variable {α : Type} [LinearOrderedField α]

end SamplingProofs

section SamplingReal

end SamplingReal

/-! ## Moving average: the blend is never zero -/

section BlendNonzero

theorem normalize_eq_smul (sqrt : ℝ → ℝ) (v : Fin 4 → ℝ) :
    normalize sqrt v = (sqrt (Matrix.dotProduct v v))⁻¹ • v := by
  funext i
  simp only [normalize, Pi.smul_apply, smul_eq_mul]
  rw [div_eq_inv_mul]

theorem dotProduct_normalize (v : Fin 4 → ℝ) (hv : 0 < Matrix.dotProduct v v) :
    Matrix.dotProduct (normalize Real.sqrt v) (normalize Real.sqrt v) = 1 := by
  rw [normalize_eq_smul, Matrix.smul_dotProduct, Matrix.dotProduct_smul, smul_eq_mul,
    smul_eq_mul, ← mul_assoc, ← mul_inv, Real.mul_self_sqrt hv.le]
  exact inv_mul_cancel₀ hv.ne'

theorem dotProduct_blend_coeffs_pos (average_q new_q : Fin 4 → ℝ) (update_rate : ℝ)
    (ha : Matrix.dotProduct average_q average_q = 1)
    (hq : Matrix.dotProduct new_q new_q = 1)
    (hr0 : 0 < update_rate) (hr1 : update_rate ≤ 1) :
    0 < Matrix.dotProduct (blend_coeffs average_q new_q update_rate)
      (blend_coeffs average_q new_q update_rate) := by
  have key : ∀ q' : Fin 4 → ℝ, Matrix.dotProduct q' q' = 1 →
      0 ≤ Matrix.dotProduct average_q q' →
      0 < Matrix.dotProduct ((1 - update_rate) • average_q + update_rate • q')
        ((1 - update_rate) • average_q + update_rate • q') := by
    intro q' hq' hd
    have e : Matrix.dotProduct ((1 - update_rate) • average_q + update_rate • q')
        ((1 - update_rate) • average_q + update_rate • q')
        = (1 - update_rate) ^ 2 + update_rate ^ 2
          + 2 * (update_rate * (1 - update_rate)) * Matrix.dotProduct average_q q' := by
      simp only [Matrix.add_dotProduct, Matrix.dotProduct_add, Matrix.smul_dotProduct,
        Matrix.dotProduct_smul, smul_eq_mul, ha, hq', Matrix.dotProduct_comm q' average_q]
      ring
    rw [e]
    have h1 : 0 ≤ update_rate * (1 - update_rate) := mul_nonneg hr0.le (by linarith)
    have h2 : 0 ≤ 2 * (update_rate * (1 - update_rate)) * Matrix.dotProduct average_q q' :=
      mul_nonneg (by linarith) hd
    have h3 : 0 < update_rate ^ 2 := by positivity
    have h4 : 0 ≤ (1 - update_rate) ^ 2 := by positivity
    linarith
  simp only [blend_coeffs]
  by_cases h : Matrix.dotProduct average_q new_q < 0
  · rw [if_pos h]
    refine key (-new_q) ?_ ?_
    · rw [Matrix.neg_dotProduct, Matrix.dotProduct_neg, neg_neg, hq]
    · rw [Matrix.dotProduct_neg]; linarith
  · rw [if_neg h]
    exact key new_q hq (not_lt.mp h)

theorem move_average_part_orientation_unit (new_part average_part : PoseVelocity ℝ)
    (update_rate : ℝ)
    (ha : Matrix.dotProduct average_part.orientation average_part.orientation = 1)
    (hq : Matrix.dotProduct new_part.orientation new_part.orientation = 1)
    (hr0 : 0 < update_rate) (hr1 : update_rate ≤ 1) :
    Matrix.dotProduct (move_average_part Real.sqrt new_part average_part update_rate).orientation
      (move_average_part Real.sqrt new_part average_part update_rate).orientation = 1 :=
  dotProduct_normalize _ (dotProduct_blend_coeffs_pos _ _ _ ha hq hr0 hr1)

theorem move_average_result_unit (update_rate : ℝ) (hr0 : 0 < update_rate)
    (hr1 : update_rate ≤ 1) :
    ∀ (new_state moving_average result : State ℝ),
      (∀ p ∈ moving_average, Matrix.dotProduct p.orientation p.orientation = 1) →
      (∀ p ∈ new_state, Matrix.dotProduct p.orientation p.orientation = 1) →
      move_average Real.sqrt new_state moving_average update_rate = some result →
      ∀ p ∈ result, Matrix.dotProduct p.orientation p.orientation = 1
  | _, [], result, _, _, h => by
    simp only [move_average, Option.some.injEq] at h
    subst h
    simp
  | [], _ :: _, _, _, _, h => by simp [move_average] at h
  | n :: ns, a :: as, result, ha, hq, h => by
    simp only [move_average, Option.map_eq_some'] at h
    obtain ⟨rest, hrest, rfl⟩ := h
    have ih := move_average_result_unit update_rate hr0 hr1 ns as rest
      (fun p hp => ha p (by simp [hp])) (fun p hp => hq p (by simp [hp])) hrest
    intro p hp
    rcases List.mem_cons.mp hp with rfl | hp
    · exact move_average_part_orientation_unit n a update_rate (ha a (by simp))
        (hq n (by simp)) hr0 hr1
    · exact ih p hp

/-- C11. For unit orientation quaternions in every part of the moving average and of the
incoming state and an update rate `0 < r ≤ 1`: the coefficient vector `(1 - r)·a + r·q'` formed
by `move_average` for a pair of parts is not the zero vector and its norm, by which
`normalize` divides, is not zero; `move_average` returns when the incoming state has no fewer
parts than the moving average; and every orientation of the returned moving average has unit
length. -/
theorem move_average_orientation_unit (new_state moving_average : State ℝ) (update_rate : ℝ)
    (hr0 : 0 < update_rate) (hr1 : update_rate ≤ 1)
    (ha : ∀ p ∈ moving_average, Matrix.dotProduct p.orientation p.orientation = 1)
    (hq : ∀ p ∈ new_state, Matrix.dotProduct p.orientation p.orientation = 1) :
    (∀ p ∈ moving_average.zip new_state,
      blend_coeffs p.1.orientation p.2.orientation update_rate ≠ 0 ∧
      Real.sqrt (Matrix.dotProduct (blend_coeffs p.1.orientation p.2.orientation update_rate)
        (blend_coeffs p.1.orientation p.2.orientation update_rate)) ≠ 0) ∧
    (moving_average.length ≤ new_state.length →
      ∃ result, move_average Real.sqrt new_state moving_average update_rate = some result) ∧
    (∀ result, move_average Real.sqrt new_state moving_average update_rate = some result →
      ∀ p ∈ result, Matrix.dotProduct p.orientation p.orientation = 1) := by
  refine ⟨?_, fun hlen => ⟨_, move_average_eq_zipWith Real.sqrt new_state moving_average
    update_rate hlen⟩, fun result h => move_average_result_unit update_rate hr0 hr1 new_state
    moving_average result ha hq h⟩
  intro p hp
  have hpos := dotProduct_blend_coeffs_pos p.1.orientation p.2.orientation update_rate
    (ha p.1 (List.of_mem_zip hp).1) (hq p.2 (List.of_mem_zip hp).2) hr0 hr1
  refine ⟨?_, (Real.sqrt_pos.mpr hpos).ne'⟩
  intro h0
  rw [h0, Matrix.dotProduct_zero] at hpos
  exact lt_irrefl _ hpos

/-- Witness for C11: the average `(0, 0, 0, 1)`, the incoming `(1, 0, 0, 0)` orthogonal to it,
and update rate `1/2`. -/
theorem move_average_orientation_unit_witness :
    (∀ p ∈ List.zip ([⟨0, ![0, 0, 0, 1], 0, 0⟩] : State ℝ)
        ([⟨1, ![1, 0, 0, 0], 0, 0⟩] : State ℝ),
      blend_coeffs p.1.orientation p.2.orientation (1 / 2) ≠ 0 ∧
      Real.sqrt (Matrix.dotProduct (blend_coeffs p.1.orientation p.2.orientation (1 / 2))
        (blend_coeffs p.1.orientation p.2.orientation (1 / 2))) ≠ 0) ∧
    (([⟨0, ![0, 0, 0, 1], 0, 0⟩] : State ℝ).length
        ≤ ([⟨1, ![1, 0, 0, 0], 0, 0⟩] : State ℝ).length →
      ∃ result, move_average Real.sqrt [⟨1, ![1, 0, 0, 0], 0, 0⟩]
        [⟨0, ![0, 0, 0, 1], 0, 0⟩] (1 / 2) = some result) ∧
    (∀ result, move_average Real.sqrt [⟨1, ![1, 0, 0, 0], 0, 0⟩]
        [⟨0, ![0, 0, 0, 1], 0, 0⟩] (1 / 2) = some result →
      ∀ p ∈ result, Matrix.dotProduct p.orientation p.orientation = 1) :=
  move_average_orientation_unit [⟨1, ![1, 0, 0, 0], 0, 0⟩] [⟨0, ![0, 0, 0, 1], 0, 0⟩] (1 / 2)
    (by norm_num) (by norm_num)
    (by simp [Matrix.dotProduct, Fin.sum_univ_four])
    (by simp [Matrix.dotProduct, Fin.sum_univ_four])

end BlendNonzero

/-! ## Transition model: the sign of the covariance factor -/

section FactorSign

open Double

theorem Covariance_of_factor {n : ℕ} (libm : Libm) (damping_ : Double)
    (acceleration_covariance_ : Matrix (Fin n) (Fin n) Double) (delta_time factor : Double)
    (h : Covariance_factor libm damping_ delta_time = some factor) :
    Covariance libm damping_ acceleration_covariance_ delta_time
      = some (Matrix.of (fun i j => mul factor (acceleration_covariance_ i j))) := by
  simp only [Covariance, h, Option.map_some']

/-- Rounding alone can cost positive semi-definiteness, also on the fallback branch: at damping
`1e-110` and `Δt = 1` the factor is the double just below `1/3`; for the positive semi-definite
acceleration covariance `((1, 3), (3, 9))` the products `3·factor` and `9·factor` round to `1`
and `3`, and the returned matrix `((factor, 1), (1, 3))` has a negative determinant. -/
theorem Covariance_rounding_not_posSemidef :
    ((Matrix.of ![![ofNat 1, ofNat 3], ![ofNat 3, ofNat 9]] :
        Matrix (Fin 2) (Fin 2) Double).map toRat).PosSemidef ∧
    Covariance sample_libm (ofDecimal 1 110)
        (Matrix.of ![![ofNat 1, ofNat 3], ![ofNat 3, ofNat 9]]) (ofNat 1)
      = some (Matrix.of ![![finite false 6004799503160661 (-54), ofNat 1],
          ![ofNat 1, ofNat 3]]) ∧
    ¬ ((Matrix.of ![![finite false 6004799503160661 (-54), ofNat 1], ![ofNat 1, ofNat 3]] :
        Matrix (Fin 2) (Fin 2) Double).map toRat).PosSemidef := by
  have h1 : ofNat 1 = finite false 4503599627370496 (-52) := by decide!
  have h3 : ofNat 3 = finite false 6755399441055744 (-51) := by decide!
  have h9 : ofNat 9 = finite false 5066549580791808 (-49) := by decide!
  have r1 : (finite false 4503599627370496 (-52)).toRat = 1 := by
    simp only [toRat, Bool.false_eq_true, if_false, one_mul]; norm_num
  have r3 : (finite false 6755399441055744 (-51)).toRat = 3 := by
    simp only [toRat, Bool.false_eq_true, if_false, one_mul]; norm_num
  have r9 : (finite false 5066549580791808 (-49)).toRat = 9 := by
    simp only [toRat, Bool.false_eq_true, if_false, one_mul]; norm_num
  have hf : Covariance_factor sample_libm (ofDecimal 1 110) (ofNat 1)
      = some (finite false 6004799503160661 (-54)) := by decide!
  refine ⟨?_, ?_, ?_⟩
  · have e : ((Matrix.of ![![ofNat 1, ofNat 3], ![ofNat 3, ofNat 9]] :
          Matrix (Fin 2) (Fin 2) Double).map toRat)
        = (Matrix.of ![![(1 : ℚ), 3]] : Matrix (Fin 1) (Fin 2) ℚ).conjTranspose
          * (Matrix.of ![![(1 : ℚ), 3]] : Matrix (Fin 1) (Fin 2) ℚ) := by
      ext i j
      fin_cases i <;> fin_cases j <;>
        simp [Matrix.mul_apply, h1, h3, h9, r1, r3, r9]
      norm_num
    rw [e]
    exact Matrix.posSemidef_conjTranspose_mul_self _
  · rw [Covariance_of_factor sample_libm _ _ _ _ hf]
    refine congrArg some ?_
    ext i j
    fin_cases i <;> fin_cases j <;>
      simp only [Matrix.of_apply, Fin.zero_eta, Fin.mk_one, Fin.isValue, Matrix.cons_val_zero,
        Matrix.cons_val_one, Matrix.head_cons] <;> decide!
  · intro h
    have h2 := h.2 ![3, -1]
    simp only [Matrix.mulVec, Matrix.dotProduct, Fin.sum_univ_two, Fin.isValue,
      Matrix.map_apply, Matrix.of_apply, Matrix.cons_val_zero, Matrix.cons_val_one,
      Matrix.head_cons, Pi.star_apply, star_trivial, h1, h3, r1, r3] at h2
    have hlt : (finite false 6004799503160661 (-54)).toRat < 1 / 3 := by
      simp only [toRat, Bool.false_eq_true, if_false, one_mul]
      norm_num
    linarith

end FactorSign


end Dbot
